import Mathlib

/-!
Shallow embedding of `src/module.go` from caddy-sqlite-fs: a read-only
virtual filesystem backed by a SQLite table, exposing `Open(name)` over
rows `(name, content, modified, mode, expired_at)`.

Modelling choices, all taken from the source:
* Bytes are `List Nat`; machine integers are `Int`/`Nat` with explicit
  conversions where the code converts (`fs.FileMode(*mode)` is an
  `int32 → uint32` bit-pattern cast, modelled as `% 2^32`).
* `*sql.DB` is an abstract handle `DB` (a generation number).  Whether a
  given handle can serve a query, whether a matching row decodes cleanly,
  and what `sql.Open` would hand back on this call are environment data
  (`Env`), since they live outside the program.
* `sql.Open` returns `(nil, err)` on failure and `(db, nil)` on success
  (the standard library never returns a non-nil `*DB` together with a
  non-nil error).  Calling `(*sql.DB).Close()` on a nil receiver
  dereferences `db.mu` and panics; the embedding records that outcome as
  `GoPanic.nilPointerDeref`.
* `Open` has a VALUE receiver `func (s SQLiteFS) Open(...)`: the body runs
  on a copy of the instance, so assignments to `s.db` inside the body are
  assignments to the copy.  `OpenBody` is the body (threading the copy's
  state); `OpenCall` is a call as the caller sees it: the caller's
  instance is unchanged and only the returned value escapes.
* `time.Time` is `GoInstant`: either the zero value of `time.Time` or the
  instant `time.Unix(sec, 0)` (these are distinct for every `sec`).
-/

/-- An opened `*sql.DB` handle, identified by its generation. -/
structure DB where
  gen : Nat
deriving DecidableEq, Repr

/-- One row of the `files` table:
`name TEXT, content BLOB, modified INTEGER NULL, mode INTEGER NULL,
expired_at INTEGER NULL`. -/
structure Row where
  name : String
  content : List Nat
  modified : Option Int
  mode : Option Int
  expired_at : Option Int
deriving DecidableEq, Repr

/-- The world outside the program: the table contents, the current wall
clock in epoch seconds (`strftime('%s','now')`), which handles can serve a
query (`healthy` false = connectivity/corruption error at query time),
which rows fail to decode in `row.Scan` (type mismatch), and what
`sql.Open` would return on this call (`none` = it fails, handing back a
nil `*sql.DB` together with an error). -/
structure Env where
  rows : List Row
  now : Int
  healthy : DB → Bool
  malformed : Row → Bool
  openResult : Option DB

/-- The `SQLiteFS` struct: configured path and the held handle
(`db *sql.DB`, nil = absent). -/
structure SQLiteFS where
  dbPath : String
  db : Option DB
deriving DecidableEq, Repr

/-- A Go runtime panic. -/
inductive GoPanic where
  | nilPointerDeref
deriving DecidableEq, Repr

/-- Go `error` values that can escape this module.  `fs.ErrNotExist` is the
only one the code constructs; `otherError` exists so that "never any other
error value" is a statement, not a typing accident. -/
inductive GoError where
  | errNotExist
  | otherError (code : Nat)
deriving DecidableEq, Repr

/-- The WHERE clause's visibility test for one row:
`expired_at IS NULL OR expired_at > strftime('%s','now')`.
(`expired_at` has INTEGER affinity, so the TEXT result of `strftime` is
compared numerically.) -/
def visibleB (r : Row) (now : Int) : Bool :=
  match r.expired_at with
  | none => true
  | some e => decide (now < e)

/-- The point query `SELECT content, modified, mode FROM files WHERE
name=? AND (expired_at IS NULL OR expired_at > strftime('%s','now'))
LIMIT 1`: the first stored row matching the name and visible now. -/
def findRow (rows : List Row) (now : Int) (name : String) : Option Row :=
  (rows.filter (fun r => r.name == name && visibleB r now)).head?

/-- Outcome of `QueryRow(...)` followed by `row.Scan(...)`. -/
inductive ScanResult where
  | row (r : Row)
  | errNoRows
  | errOther
deriving DecidableEq, Repr

/-- Running `QueryRow` + `Scan` against handle `d`: an unhealthy handle surfaces a
database error at `Scan`; no visible row surfaces `sql.ErrNoRows`; a
visible row that fails to decode surfaces a (non-`ErrNoRows`) scan error;
otherwise the row's columns are decoded. -/
def runQueryScan (env : Env) (d : DB) (name : String) : ScanResult :=
  if env.healthy d then
    match findRow env.rows env.now name with
    | none => .errNoRows
    | some r => if env.malformed r then .errOther else .row r
  else .errOther

/-- The method `func (s *SQLiteFS) OpenDB()` (lines 37–50): no-op when a handle is
held; otherwise `db, err := sql.Open("sqlite3", s.DBPath+"?_journal=WAL")`.
On `err != nil` the code runs `db.Close()` — but `sql.Open` returned a nil
`*sql.DB` alongside that error, and `(*sql.DB).Close()` on a nil receiver
dereferences `db.mu` and panics, so the subsequent `s.db = nil` and the
return are never reached.  On success the handle is stored. -/
def OpenDB (env : Env) (s : SQLiteFS) : Except GoPanic SQLiteFS :=
  match s.db with
  | some _ => .ok s
  | none =>
    match env.openResult with
    | some d => .ok { s with db := some d }
    | none => .error .nilPointerDeref

/-- Go `time.Time`, restricted to the values this module produces: the zero
value, or `time.Unix(sec, 0)`. -/
inductive GoInstant where
  | zeroTime
  | unixSec (sec : Int)
deriving DecidableEq, Repr

/-- The conversion `fs.FileMode(m)` for `m : int32`: a bit-pattern cast to `uint32`. -/
def int32ToUInt32 (m : Int) : Nat := (m % 4294967296).toNat

/-- Struct `sqliteFileInfo` (lines 119–124).  Field defaults are the Go zero
values; `mode` is the `uint32` value of the `fs.FileMode`. -/
structure sqliteFileInfo where
  name : String := ""
  size : Int := 0
  modTime : GoInstant := .zeroTime
  mode : Nat := 0
deriving DecidableEq, Repr

/-- Struct `sqliteFile` (lines 106–109): a `*bytes.Buffer` over the content (the
remaining unread bytes; `none` models the nil pointer after `Close`) plus
the frozen `sqliteFileInfo`. -/
structure sqliteFile where
  reader : Option (List Nat)
  info : sqliteFileInfo
deriving DecidableEq, Repr

/-- Lines 90–101: build the `sqliteFile` from a decoded row.  The struct
literal sets only `size` (the `name` field is left at its zero value `""`);
`modTime` is set only when `modified` was non-NULL, `mode` only when `mode`
was non-NULL. -/
def materialize (r : Row) : sqliteFile :=
  let info0 : sqliteFileInfo := { size := (r.content.length : Int) }
  let info1 := match r.modified with
    | some m => { info0 with modTime := GoInstant.unixSec m }
    | none => info0
  let info2 := match r.mode with
    | some m => { info1 with mode := int32ToUInt32 m }
    | none => info1
  { reader := some r.content, info := info2 }

/-- The method `func (f sqliteFile) Stat() (fs.FileInfo, error)`: the frozen
info and a nil error. -/
def stat (f : sqliteFile) : sqliteFileInfo × Option GoError := (f.info, none)

/-- Reading the handle to exhaustion: `bytes.Buffer.Read` drains the
remaining bytes forward-only, so the total of all reads is exactly what
the buffer still holds (all of `content`, on a fresh handle). -/
def readAll (f : sqliteFile) : List Nat :=
  match f.reader with
  | none => []
  | some bs => bs

/-- The method `func (f *sqliteFile) Close() error` (lines 113–117): sets `f.reader`
to nil, resets `f.info` to the zero value, returns nil. -/
def sqliteFile.close (_f : sqliteFile) : sqliteFile × Option GoError :=
  ({ reader := none, info := {} }, none)

/-- The body of `func (s SQLiteFS) Open(name string)` (lines 70–104), run
on the callee's copy of the receiver.  Returns the copy's final state
together with the returned `(fs.File, error)` pair (as an `Except`), or
the panic that escaped.  The `none` case after `OpenDB` mirrors lines
72–74 (`if s.db == nil`). -/
def OpenBody (env : Env) (s0 : SQLiteFS) (name : String) :
    Except GoPanic (SQLiteFS × Except GoError sqliteFile) :=
  match OpenDB env s0 with
  | .error p => .error p
  | .ok s =>
    match s.db with
    | none => .ok (s, .error .errNotExist)
    | some d =>
      match runQueryScan env d name with
      | .row r => .ok (s, .ok (materialize r))
      | .errNoRows => .ok (s, .error .errNotExist)
      | .errOther => .ok ({ s with db := none }, .error .errNotExist)

/-- A call `s.Open(name)` as the caller observes it.  The receiver is
passed BY VALUE, so the callee's copy (and every assignment to its `db`
field) is discarded when the body returns: the caller's instance is the
unchanged `s`, and only the returned pair (or the panic) escapes. -/
def OpenCall (env : Env) (s : SQLiteFS) (name : String) :
    SQLiteFS × Except GoPanic (Except GoError sqliteFile) :=
  (s, (OpenBody env s name).map Prod.snd)

/-- Go `path.Base`: "" maps to "."; otherwise trailing slashes are stripped,
the suffix after the last slash is taken, and an all-slash input maps
to "/". -/
def pathBase (s : String) : String :=
  if s = "" then "."
  else
    let stripped := (s.data.reverse.dropWhile (fun c => c = '/')).reverse
    if stripped = [] then "/"
    else String.mk ((stripped.reverse.takeWhile (fun c => c ≠ '/')).reverse)

/-- The method `func (fi sqliteFileInfo) Name() string`, which returns
`path.Base(fi.name)` (line 126). -/
def sqliteFileInfo.goName (fi : sqliteFileInfo) : String := pathBase fi.name

/-! Concrete fixtures used by witnesses and counterexamples. -/

/-- The spec's round-trip row: content "hello", modified 1700000000,
mode 0644 (= 420), never expiring. -/
def rowHello : Row :=
  { name := "/a.txt", content := [104, 101, 108, 108, 111],
    modified := some 1700000000, mode := some 420, expired_at := none }

/-- A second visible row under a different name, with NULL metadata. -/
def rowY : Row :=
  { name := "y", content := [1, 2], modified := none, mode := none,
    expired_at := none }

/-- A row whose `expired_at` (5) is in the past relative to `now = 10`. -/
def rowExpired : Row :=
  { name := "x", content := [7], modified := none, mode := none,
    expired_at := some 5 }

/-- An instance holding a healthy handle (generation 1). -/
def fsHeld : SQLiteFS := { dbPath := "files.db", db := some { gen := 1 } }

/-- An instance holding a broken handle (generation 0). -/
def fsBroken : SQLiteFS := { dbPath := "files.db", db := some { gen := 0 } }

/-- An instance with no handle held. -/
def fsNil : SQLiteFS := { dbPath := "files.db", db := none }

/-- A healthy world: two visible rows, every handle works, every row
decodes, and a fresh open would yield generation 1. -/
def envOK : Env :=
  { rows := [rowHello, rowY], now := 0, healthy := fun _ => true,
    malformed := fun _ => false, openResult := some { gen := 1 } }

/-- A world where generation 0 is broken but a fresh open yields the
healthy generation 1: the self-healing scenario of the spec. -/
def envHealed : Env :=
  { rows := [rowY], now := 0, healthy := fun d => d.gen == 1,
    malformed := fun _ => false, openResult := some { gen := 1 } }

/-- A world where `sql.Open` fails (returns a nil handle and an error). -/
def envOpenFail : Env :=
  { rows := [], now := 0, healthy := fun _ => true,
    malformed := fun _ => false, openResult := none }

/-- A world containing only the expired row, observed at `now = 10`. -/
def envExpired : Env :=
  { rows := [rowExpired], now := 10, healthy := fun _ => true,
    malformed := fun _ => false, openResult := some { gen := 1 } }

/-- The spec's reading of the `modified` column: the instant for `m` when
present, the zero instant otherwise. -/
def modTimeOf : Option Int → GoInstant
  | some m => GoInstant.unixSec m
  | none => GoInstant.zeroTime

/-- The spec's reading of the `mode` column: the (cast) mode when present,
zero ("no bits set") otherwise. -/
def modeOf : Option Int → Nat
  | some m => int32ToUInt32 m
  | none => 0

/-! General lemmas about the embedded query. -/

/-- If no element of the list satisfies the predicate, the filtered list
has no head. -/
theorem filter_head_none {α : Type} (p : α → Bool) (l : List α)
    (h : ∀ a ∈ l, p a = false) : (l.filter p).head? = none := by
  induction l with
  | nil => rfl
  | cons a t ih =>
    have ha : p a = false := h a (List.mem_cons_self a t)
    have ht : ∀ b ∈ t, p b = false := fun b hb => h b (List.mem_cons_of_mem a hb)
    simp [List.filter_cons, ha, ih ht]

/-- If some element of the list satisfies the predicate, the filtered list
has a head, and that head comes from the list and satisfies the
predicate. -/
theorem filter_head_some {α : Type} (p : α → Bool) (l : List α)
    (h : ∃ a ∈ l, p a = true) :
    ∃ b, (l.filter p).head? = some b ∧ b ∈ l ∧ p b = true := by
  induction l with
  | nil => simp at h
  | cons a t ih =>
    by_cases ha : p a = true
    · exact ⟨a, by simp [List.filter_cons, ha], List.mem_cons_self a t, ha⟩
    · have ha2 : p a = false := by simpa using ha
      obtain ⟨c, hc, hpc⟩ := h
      rcases List.mem_cons.mp hc with rfl | hct
      · exact absurd hpc ha
      · obtain ⟨b, hb1, hb2, hb3⟩ := ih ⟨c, hct, hpc⟩
        exact ⟨b, by simp [List.filter_cons, ha2, hb1],
          List.mem_cons_of_mem a hb2, hb3⟩

/-- The point query returns nothing when every row carrying the requested
name is invisible at the current time. -/
theorem findRow_eq_none (rows : List Row) (now : Int) (name : String)
    (h : ∀ r ∈ rows, r.name = name → visibleB r now = false) :
    findRow rows now name = none := by
  apply filter_head_none
  intro r hr
  by_cases hn : r.name = name
  · simp [hn, h r hr hn]
  · simp [hn]

/-- The point query returns some row when a visible row carries the
requested name; the returned row is itself stored, name-matching and
visible. -/
theorem findRow_eq_some (rows : List Row) (now : Int) (name : String)
    (r : Row) (hr : r ∈ rows) (hn : r.name = name)
    (hv : visibleB r now = true) :
    ∃ b, findRow rows now name = some b ∧ b ∈ rows ∧ b.name = name ∧
      visibleB b now = true := by
  obtain ⟨b, h1, h2, h3⟩ :=
    filter_head_some (fun r => r.name == name && visibleB r now) rows
      ⟨r, hr, by simp [hn, hv]⟩
  have h4 : b.name = name ∧ visibleB b now = true := by simpa using h3
  exact ⟨b, h1, h2, h4.1, h4.2⟩

/-- Any value an `Open` body hands back is either the materialized file or
exactly `fs.ErrNotExist`; no other error value is ever constructed. -/
theorem openBody_outcome (env : Env) (s0 : SQLiteFS) (name : String)
    (s1 : SQLiteFS) (r : Except GoError sqliteFile)
    (h : OpenBody env s0 name = .ok (s1, r)) :
    r = .error .errNotExist ∨ ∃ f, r = .ok f := by
  unfold OpenBody at h
  repeat' split at h
  all_goals
    first
      | exact Except.noConfusion h
      | (injection h with h0; injection h0 with ha hb; subst hb;
         exact Or.inl rfl)
      | (injection h with h0; injection h0 with ha hb; subst hb;
         exact Or.inr ⟨_, rfl⟩)

/-- Projecting a call: the pair a caller receives is the body's returned
pair; the copy's final state is dropped. -/
theorem openCall_snd (env : Env) (s : SQLiteFS) (name : String) :
    (OpenCall env s name).2 = (OpenBody env s name).map Prod.snd := rfl

/-- Projecting a call: the caller's instance after the call is the
instance before it (the receiver was copied). -/
theorem openCall_fst (env : Env) (s : SQLiteFS) (name : String) :
    (OpenCall env s name).1 = s := rfl

/-- Evaluating the body of `Open` on an instance that holds handle `d`:
the scan outcome decides the returned pair, and only a non-`ErrNoRows`
scan error clears the copy's handle. -/
theorem openBody_eval (env : Env) (p : String) (d : DB) (name : String) :
    OpenBody env { dbPath := p, db := some d } name =
      (match runQueryScan env d name with
      | ScanResult.row r =>
          .ok ({ dbPath := p, db := some d }, .ok (materialize r))
      | ScanResult.errNoRows =>
          .ok ({ dbPath := p, db := some d }, .error .errNotExist)
      | ScanResult.errOther =>
          .ok ({ dbPath := p, db := none }, .error .errNotExist)) := rfl

/-- C1: the spec claims that a non-`ErrNoRows` query failure invalidates
the held handle so that the NEXT `Open` attempts a fresh open and, when
that open and query are healthy, succeeds.  The code contradicts this:
`Open` has a value receiver, so `s.db = nil` mutates only the callee's
copy.  Concretely: the held generation-0 handle is broken, a fresh open
would yield the healthy generation 1, and the row for "y" is visible —
the first `Open("x")` fails as expected, but the second `Open("y")` still
runs on the stale generation-0 handle and reports not-found, whereas an
instance whose handle had really been cleared would succeed. -/
theorem C1_stale_handle_after_failure :
    (OpenCall envHealed fsBroken "x").2 = .ok (.error .errNotExist) ∧
    (OpenCall envHealed ((OpenCall envHealed fsBroken "x").1) "y").2 =
      .ok (.error .errNotExist) ∧
    (OpenCall envHealed fsNil "y").2 = .ok (.ok (materialize rowY)) :=
  ⟨rfl, rfl, rfl⟩

/-- C6: the spec claims the `FileInfo` embedded in a returned handle
records the opened path, so `Stat().Name()` is the final path element.
The code never assigns the `name` field when building the info (lines
90–101 set only `size`, `modTime`, `mode`), so the field stays `""` and
`Name()` returns `path.Base("") = "."` — not `"a.txt"` — for a successful
`Open("/a.txt")`. -/
theorem C6_info_name_never_populated :
    (OpenCall envOK fsHeld "/a.txt").2 = .ok (.ok (materialize rowHello)) ∧
    (materialize rowHello).info.name = "" ∧
    sqliteFileInfo.goName (materialize rowHello).info = "." ∧
    pathBase "/a.txt" = "a.txt" :=
  ⟨rfl, rfl, rfl, rfl⟩

/-- C7: the spec claims a failed open releases the partial resource,
leaves the handle unset and returns silently.  In the code's failure
branch `db, err := sql.Open(...)` has returned a nil `*sql.DB` together
with the error, and `db.Close()` on that nil receiver panics with a nil
pointer dereference before `s.db = nil` or the return is reached: with no
handle held and a failing open, `OpenDB` panics instead of returning. -/
theorem C7_openDB_close_on_nil_handle :
    fsNil.db = none ∧ OpenDB envOpenFail fsNil = .error .nilPointerDeref :=
  ⟨rfl, rfl⟩

/-- C8: calling `Close()` twice (or more) on a handle is safe: each call
returns a nil error and does not panic (it only assigns fields), and the
second call leaves the handle in exactly the released state the first call
produced. -/
theorem C8_close_twice_idempotent (f : sqliteFile) :
    (f.close).2 = none ∧
    (((f.close).1).close).2 = none ∧
    (((f.close).1).close).1 = (f.close).1 :=
  ⟨rfl, rfl, rfl⟩

/-- C10: because `Open` takes its receiver by value, no `Open` call
mutates the instance a later call observes: the caller's instance after
any call equals the instance before it.  The copy, meanwhile, really is
mutated inside the body — a query failure clears the copy's handle, and a
body that opened a fresh handle stores it in the copy — and both
mutations are discarded when the call returns. -/
theorem C10_open_never_mutates_instance :
    (∀ (env : Env) (s : SQLiteFS) (name : String),
      (OpenCall env s name).1 = s) ∧
    OpenBody envHealed fsBroken "x" =
      .ok ({ fsBroken with db := none }, .error .errNotExist) ∧
    (OpenCall envHealed fsBroken "x").1.db = some { gen := 0 } ∧
    OpenBody envOK fsNil "y" =
      .ok ({ fsNil with db := some { gen := 1 } }, .ok (materialize rowY)) ∧
    (OpenCall envOK fsNil "y").1.db = none :=
  ⟨fun _ _ _ => rfl, rfl, rfl, rfl, rfl⟩

/-- C2: the spec claims every internal failure cause — including a failing
open attempt — surfaces to the caller as exactly the standardized "does
not exist" error, and success returns a handle with a nil error.  The
code violates the open-failure case: with no handle held and a failing
`sql.Open`, the call panics inside `OpenDB` (nil `*sql.DB` closed) instead
of returning `fs.ErrNotExist`.  For every execution that does return, the
claim holds: the returned value is either a file with a nil error or a
nil file with exactly `fs.ErrNotExist`. -/
theorem C2_only_notExist_or_success :
    (OpenCall envOpenFail fsNil "/a.txt").2 = .error .nilPointerDeref ∧
    ∀ (env : Env) (s : SQLiteFS) (name : String)
      (r : Except GoError sqliteFile),
      (OpenCall env s name).2 = .ok r →
        r = .error .errNotExist ∨ ∃ f, r = .ok f := by
  refine ⟨rfl, ?_⟩
  intro env s name r h
  have h2 : (OpenBody env s name).map Prod.snd = .ok r := h
  cases hb : OpenBody env s name with
  | error p => rw [hb] at h2; exact Except.noConfusion h2
  | ok pr =>
    obtain ⟨s1, r1⟩ := pr
    rw [hb] at h2
    have h3 : r1 = r := by simpa [Except.map] using h2
    subst h3
    exact openBody_outcome env s name s1 r1 hb

/-- Witness for C2 at a concrete input: `Open("nope")` on a healthy held
handle returns `fs.ErrNotExist`, which the theorem classifies. -/
theorem C2_only_notExist_or_success_witness :
    (Except.error GoError.errNotExist : Except GoError sqliteFile) =
        .error .errNotExist ∨
      ∃ f, (Except.error GoError.errNotExist : Except GoError sqliteFile) =
        .ok f :=
  C2_only_notExist_or_success.2 envOK fsHeld "nope" (.error .errNotExist) rfl

/-- C3: with a held healthy handle and cleanly-decoding rows, expiration
decides visibility.  If rows carrying the requested name exist but every
one of them has `expired_at` present and at most the current time,
`Open(name)` reports not-found even though the rows are physically
stored; if some row carrying the name is visible (`expired_at` absent or
strictly in the future), `Open(name)` succeeds. -/
theorem C3_expiry_decides_visibility (env : Env) (s : SQLiteFS) (d : DB)
    (name : String) (hdb : s.db = some d) (hh : env.healthy d = true)
    (hmal : ∀ r ∈ env.rows, env.malformed r = false) :
    ((∃ r ∈ env.rows, r.name = name) →
      (∀ r ∈ env.rows, r.name = name →
        ∃ e, r.expired_at = some e ∧ e ≤ env.now) →
      (OpenCall env s name).2 = .ok (.error .errNotExist)) ∧
    ((∃ r ∈ env.rows, r.name = name ∧
        (r.expired_at = none ∨ ∃ e, r.expired_at = some e ∧ env.now < e)) →
      ∃ f, (OpenCall env s name).2 = .ok (.ok f)) := by
  obtain ⟨p, odb⟩ := s
  have hdb2 : odb = some d := hdb
  subst hdb2
  constructor
  · intro _ hall
    have hfind : findRow env.rows env.now name = none := by
      apply findRow_eq_none
      intro r hr hn
      obtain ⟨e, he1, he2⟩ := hall r hr hn
      simp only [visibleB, he1, decide_eq_false_iff_not, not_lt]
      exact he2
    have hq : runQueryScan env d name = .errNoRows := by
      simp [runQueryScan, hh, hfind]
    rw [openCall_snd, openBody_eval, hq]
    rfl
  · intro hvis
    obtain ⟨r, hr, hn, hv⟩ := hvis
    have hvb : visibleB r env.now = true := by
      rcases hv with h0 | ⟨e, he1, he2⟩
      · simp [visibleB, h0]
      · simp [visibleB, he1, he2]
    obtain ⟨b, hb1, hb2, _, _⟩ := findRow_eq_some env.rows env.now name r hr hn hvb
    have hq : runQueryScan env d name = .row b := by
      simp [runQueryScan, hh, hb1, hmal b hb2]
    refine ⟨materialize b, ?_⟩
    rw [openCall_snd, openBody_eval, hq]
    rfl

/-- Witness for C3 at a concrete input: the only row named "x" expired at
5, the clock reads 10, so `Open("x")` reports not-found. -/
theorem C3_expiry_decides_visibility_witness :
    (OpenCall envExpired fsHeld "x").2 = .ok (.error .errNotExist) :=
  (C3_expiry_decides_visibility envExpired fsHeld { gen := 1 } "x" rfl rfl
      (by intro r hr; rfl)).1
    ⟨rowExpired, List.mem_cons_self rowExpired [], rfl⟩
    (by
      intro r hr hn
      have hr2 : r = rowExpired := by simpa [envExpired] using hr
      subst hr2
      exact ⟨5, rfl, by decide⟩)

/-- C4: when `Open` succeeds on a decoded row, it returns the materialized
handle; its `Stat()` reports a nil error and a `FileInfo` whose size is
the content's byte length, whose modification time is the instant for the
`modified` column when present and the zero instant otherwise, and whose
mode is the (cast) `mode` column when present and zero otherwise; reading
the handle to exhaustion yields exactly the stored content bytes. -/
theorem C4_materialization_roundtrip (env : Env) (s : SQLiteFS) (d : DB)
    (name : String) (r : Row) (hdb : s.db = some d)
    (hq : runQueryScan env d name = .row r) :
    (OpenCall env s name).2 = .ok (.ok (materialize r)) ∧
    stat (materialize r) =
      ({ name := "", size := (r.content.length : Int),
         modTime := modTimeOf r.modified, mode := modeOf r.mode }, none) ∧
    readAll (materialize r) = r.content := by
  obtain ⟨p, odb⟩ := s
  have hdb2 : odb = some d := hdb
  subst hdb2
  refine ⟨?_, ?_, rfl⟩
  · rw [openCall_snd, openBody_eval, hq]
    rfl
  · obtain ⟨nm, c, mo, md, ex⟩ := r
    cases mo <;> cases md <;> rfl

/-- Witness for C4 at the spec's round-trip input: content "hello",
modified 1700000000, mode 0644; `Stat().Size() = 5`, the modification
instant is 1700000000, the mode is 420, and the handle reads back
exactly "hello". -/
theorem C4_materialization_roundtrip_witness :
    (OpenCall envOK fsHeld "/a.txt").2 = .ok (.ok (materialize rowHello)) ∧
    stat (materialize rowHello) =
      ({ name := "", size := 5, modTime := GoInstant.unixSec 1700000000,
         mode := 420 }, none) ∧
    readAll (materialize rowHello) = [104, 101, 108, 108, 111] :=
  C4_materialization_roundtrip envOK fsHeld { gen := 1 } "/a.txt" rowHello
    rfl rfl

/-- C5: a query that comes back with the store's own `ErrNoRows` does not
invalidate anything: the body returns its copy with the handle still
held (no `s.db = nil` on this path), the caller's instance is unchanged,
and a subsequent `Open` on a different name with a visible, decodable row
succeeds on that same handle generation. -/
theorem C5_noRows_does_not_invalidate (env : Env) (s : SQLiteFS) (d : DB)
    (n1 n2 : String) (r2 : Row) (hdb : s.db = some d)
    (hh : env.healthy d = true)
    (h1 : findRow env.rows env.now n1 = none)
    (h2 : findRow env.rows env.now n2 = some r2)
    (hm2 : env.malformed r2 = false) :
    OpenBody env s n1 = .ok (s, .error .errNotExist) ∧
    (OpenCall env s n1).1 = s ∧
    (OpenCall env ((OpenCall env s n1).1) n2).2 =
      .ok (.ok (materialize r2)) := by
  obtain ⟨p, odb⟩ := s
  have hdb2 : odb = some d := hdb
  subst hdb2
  have hq1 : runQueryScan env d n1 = .errNoRows := by
    simp [runQueryScan, hh, h1]
  have hq2 : runQueryScan env d n2 = .row r2 := by
    simp [runQueryScan, hh, h2, hm2]
  refine ⟨?_, rfl, ?_⟩
  · rw [openBody_eval, hq1]
  · rw [openCall_fst, openCall_snd, openBody_eval, hq2]
    rfl

/-- Witness for C5 at a concrete input: `Open("nope")` finds no row and
leaves the handle alone; `Open("/a.txt")` right after succeeds on the
same generation-1 handle. -/
theorem C5_noRows_does_not_invalidate_witness :
    OpenBody envOK fsHeld "nope" = .ok (fsHeld, .error .errNotExist) ∧
    (OpenCall envOK fsHeld "nope").1 = fsHeld ∧
    (OpenCall envOK ((OpenCall envOK fsHeld "nope").1) "/a.txt").2 =
      .ok (.ok (materialize rowHello)) :=
  C5_noRows_does_not_invalidate envOK fsHeld { gen := 1 } "nope" "/a.txt"
    rowHello rfl rfl rfl rfl rfl

/-- C9: `OpenDB` is idempotent.  Whenever a handle is already held it is a
no-op, leaving the instance unchanged; consequently running it twice in
succession (under any pair of open outcomes) is the same as running it
once. -/
theorem C9_openDB_idempotent :
    (∀ (env : Env) (s : SQLiteFS) (d : DB),
      s.db = some d → OpenDB env s = .ok s) ∧
    (∀ (e1 e2 : Env) (s : SQLiteFS),
      (OpenDB e1 s).bind (OpenDB e2) = OpenDB e1 s) := by
  constructor
  · intro env s d hdb
    unfold OpenDB
    rw [hdb]
  · intro e1 e2 s
    obtain ⟨p, odb⟩ := s
    cases odb with
    | some d => rfl
    | none =>
      cases ho : e1.openResult with
      | some d => simp [OpenDB, ho, Except.bind]
      | none => simp [OpenDB, ho, Except.bind]

/-- Witness for C9 at a concrete input: with the generation-1 handle
held, `OpenDB` returns the instance unchanged. -/
theorem C9_openDB_idempotent_witness :
    OpenDB envOK fsHeld = .ok fsHeld :=
  C9_openDB_idempotent.1 envOK fsHeld { gen := 1 } rfl
